import Mathlib

/-!
Shallow embedding of `scripts/macs_to_hf.py` (MACS → HuggingFace converter).

The embedded core is `convert_macs_to_hf`: it reads a delimited metadata
table (`smart_read_csv` with delimiter sniffing), normalizes the `filename`
column to a basename key (stripping a leading `audio/`), builds a lookup
keyed by basename (pandas `set_index(...).to_dict(orient="index")`, which
rejects duplicate keys), loads the annotation document's top-level `files`
list, and for each annotation group emits one flat row joining the group
with the (possibly absent) metadata record.
-/

namespace MacsToHf

/-- One annotation of an audio file: an entry of an annotation group's
`annotations` list in `MACS.yaml`. -/
structure Annotation where
  sentence : String
  tags : List String
  annotator_id : Int
  deriving Repr, DecidableEq

/-- One entry of the annotation document's `files` list. -/
structure AnnotationGroup where
  filename : String
  annotations : List Annotation
  deriving Repr, DecidableEq

/-- One row of the metadata table (`meta.csv`), as parsed. -/
structure MetaRow where
  filename : String
  scene_label : String
  identifier : String
  source_label : String
  deriving Repr, DecidableEq

/-- One emitted record: the dict appended to `rows` in the conversion loop. -/
structure Row where
  filename : String
  scene : Option String
  audio : String
  captions : List String
  tags : List (List String)
  annotators : List Int
  audio_identifier : Option String
  audio_source_label : Option String
  deriving Repr, DecidableEq

/-- Split a character list on a delimiter character (string splitting, in a
structurally recursive form the kernel evaluates). -/
def splitOnChar (d : Char) : List Char → List (List Char)
  | [] => [[]]
  | c :: cs =>
    match splitOnChar d cs with
    | [] => if c = d then [[], []] else [[c]]
    | x :: xs => if c = d then [] :: x :: xs else (c :: x) :: xs

/-- Whether the first character list is a prefix of the second. -/
def isPrefixOfChars : List Char → List Char → Bool
  | [], _ => true
  | _ :: _, [] => false
  | a :: as, b :: bs => a == b && isPrefixOfChars as bs

/-- `meta_df["filename"].str.replace(r"^audio/", "", regex=True)`: strip a
leading `audio/` prefix from the metadata filename, yielding the lookup key. -/
def metaBasename (r : MetaRow) : String :=
  if isPrefixOfChars "audio/".toList r.filename.toList then
    String.mk (r.filename.toList.drop 6)
  else r.filename

/-- `Path(s).name`: the last path component, with empty and `.` components
discarded as `pathlib` does. -/
def pathName (s : String) : String :=
  String.mk (((splitOnChar '/' s.toList).filter
    (fun c => c ≠ [] && c ≠ ['.'])).getLastD [])

/-- Whether a list of keys is duplicate-free (executable form of the index
uniqueness that `to_dict(orient="index")` demands). -/
def allDistinct : List String → Bool
  | [] => true
  | x :: xs => !(xs.contains x) && allDistinct xs

/-- `meta_df.set_index("basename").to_dict(orient="index")`: a mapping from
basename to metadata row.  pandas raises `ValueError` when the index has
duplicates; with a unique index the mapping sends each basename to its one
row, here realized by `List.find?`. -/
def buildLookup (rows : List MetaRow) : Except String (String → Option MetaRow) :=
  if allDistinct (rows.map metaBasename) then
    .ok (fun b => rows.find? (fun r => metaBasename r == b))
  else
    .error "ValueError: DataFrame index must be unique"

/-- `str(audio_root / basename)`: `pathlib` join of the audio root with the
basename (the basename never contains a slash).  Trailing slashes of the
root are dropped, `""` and `"."` roots vanish, a bare `/` root is kept. -/
def joinPath (root b : String) : String :=
  let r := String.mk ((root.toList.reverse.dropWhile (fun c => c = '/')).reverse)
  if r = "" then (if root = "" then b else "/" ++ b)
  else if r = "." then b
  else r ++ "/" ++ b

/-- The body of the conversion loop: derive the basename from the group's
filename, extract the three aligned annotation columns, look the basename up
in the metadata mapping (absence degrading to nulls), and build the row. -/
def buildRow (audio_root : String) (lookup : String → Option MetaRow)
    (item : AnnotationGroup) : Row :=
  let basename := pathName item.filename
  let m := lookup basename
  { filename := basename
    scene := m.map (fun r => r.scene_label)
    audio := joinPath audio_root basename
    captions := item.annotations.map (fun a => a.sentence)
    tags := item.annotations.map (fun a => a.tags)
    annotators := item.annotations.map (fun a => a.annotator_id)
    audio_identifier := m.map (fun r => r.identifier)
    audio_source_label := m.map (fun r => r.source_label) }

/-- The conversion loop over the annotation groups (`for item in yaml_items`). -/
def joinGroups (audio_root : String) (lookup : String → Option MetaRow)
    (items : List AnnotationGroup) : List Row :=
  items.map (buildRow audio_root lookup)

/-- A parsed YAML value, as `yaml.safe_load` produces. -/
inductive Yaml where
  | str (s : String)
  | int (n : Int)
  | list (xs : List Yaml)
  | map (kvs : List (String × Yaml))
  | null

/-- `yaml.safe_load(f)["files"]`: the annotation loader.  It fails when the
document is not a mapping or lacks the top-level `files` key, and when the
value under `files` is not a list of entries. -/
def loadYamlItems (doc : Yaml) : Except String (List Yaml) :=
  match doc with
  | .map kvs =>
    match kvs.lookup "files" with
    | some (.list xs) => .ok xs
    | some _ => .error "TypeError: 'files' is not a list"
    | none => .error "KeyError: 'files'"
  | _ => .error "TypeError: document is not a mapping"

/-- Extract `item["filename"]` / `item["annotations"]` etc. from a YAML
mapping, failing (`KeyError`) when the key is absent. -/
def yamlGet (kvs : List (String × Yaml)) (k : String) : Except String Yaml :=
  match kvs.lookup k with
  | some v => .ok v
  | none => .error ("KeyError: " ++ k)

/-- A YAML scalar used as a string. -/
def asStr : Yaml → Except String String
  | .str s => .ok s
  | _ => .error "TypeError: expected string"

/-- A YAML scalar used as an integer. -/
def asInt : Yaml → Except String Int
  | .int n => .ok n
  | _ => .error "TypeError: expected int"

/-- A YAML value used as a list of strings (an annotation's `tags`). -/
def asStrList : Yaml → Except String (List String)
  | .list xs => xs.mapM asStr
  | _ => .error "TypeError: expected list of strings"

/-- One annotation dict: `a["sentence"]`, `a["tags"]`, `a["annotator_id"]`. -/
def parseAnnotation : Yaml → Except String Annotation
  | .map kvs => do
    let s ← yamlGet kvs "sentence" >>= asStr
    let t ← yamlGet kvs "tags" >>= asStrList
    let a ← yamlGet kvs "annotator_id" >>= asInt
    .ok { sentence := s, tags := t, annotator_id := a }
  | _ => .error "TypeError: annotation is not a mapping"

/-- One entry of the `files` list: `item["filename"]`, `item["annotations"]`. -/
def parseGroup : Yaml → Except String AnnotationGroup
  | .map kvs => do
    let f ← yamlGet kvs "filename" >>= asStr
    let anns ← match ← yamlGet kvs "annotations" with
      | .list xs => xs.mapM parseAnnotation
      | _ => .error "TypeError: 'annotations' is not a list"
    .ok { filename := f, annotations := anns }
  | _ => .error "TypeError: entry is not a mapping"

/-- `convert_macs_to_hf`, data path only: build the metadata lookup from the
parsed table, load the annotation document's `files` list, and run the join
loop, producing the emitted row sequence (the argument of
`datasets.Dataset.from_pandas`). -/
def convert_macs_to_hf (audio_root : String) (metaRows : List MetaRow)
    (doc : Yaml) : Except String (List Row) := do
  let lookup ← buildLookup metaRows
  let items ← loadYamlItems doc
  let groups ← items.mapM parseGroup
  .ok (joinGroups audio_root lookup groups)

/-! ### Tabular Reader (`smart_read_csv`)

A file is a list of lines; a line is a list of characters.  `csv.Sniffer`
is given only the first line and the candidate set `[",", "\t", ";"]`; on a
single-line sample every candidate present in the line rates equally and
the sniffer returns the first present candidate in its preference order,
which coincides with the candidate order.  `pd.read_csv(path, sep=...)`
then splits every line on the detected delimiter, the first line being the
header naming the columns. -/

/-- Whether a character occurs in a line. -/
def hasChar (d : Char) (l : List Char) : Bool :=
  l.any (fun c => c == d)

/-- The sniffed candidate delimiters, in `csv.Sniffer` preference order. -/
def candidateDelims : List Char := [',', '\t', ';']

/-- `csv.Sniffer().sniff(first_line, [",", "\t", ";"])`.  The sniffer first
looks for quoted cells (`_guess_quote_and_delimiter`); on a sample without
the quote character it finds none and falls back to the frequency pass
(`_guess_delimiter`), which on a one-line sample rates every present
candidate equally and returns the first present one in its preference
order — the candidate order.  This embedding is that quote-free behaviour:
the first candidate occurring in the line, `none` when the sniffer cannot
determine a delimiter. -/
def sniffDelim (line : List Char) : Option Char :=
  candidateDelims.find? (fun d => hasChar d line)

/-- Parser state of the field splitter: outside quotes, inside a quoted
region, or just after a quote character seen inside a quoted region (which
is either the closing quote or the first half of a doubled quote). -/
inductive CsvState where
  | unquoted
  | inQuotes
  | quoteInQuotes

/-- Field splitting of one line as the `pd.read_csv` parser performs it
with the default `quotechar='"'`: a quote at the start of a field opens a
quoted region in which the delimiter is literal, a doubled quote inside a
quoted region denotes a literal quote, the closing quote returns to
unquoted mode (any remaining characters are appended to the field), and a
quote inside a nonempty unquoted field is literal.  The list argument
after the state accumulates the current field in reverse. -/
def csvSplitAux (d : Char) : CsvState → List Char → List Char → List (List Char)
  | _, cur, [] => [cur.reverse]
  | .inQuotes, cur, c :: cs =>
    if c = '"' then csvSplitAux d .quoteInQuotes cur cs
    else csvSplitAux d .inQuotes (c :: cur) cs
  | .quoteInQuotes, cur, c :: cs =>
    if c = '"' then csvSplitAux d .inQuotes ('"' :: cur) cs
    else if c = d then cur.reverse :: csvSplitAux d .unquoted [] cs
    else csvSplitAux d .unquoted (c :: cur) cs
  | .unquoted, cur, c :: cs =>
    if c = d then cur.reverse :: csvSplitAux d .unquoted [] cs
    else if c = '"' then
      (if cur = [] then csvSplitAux d .inQuotes cur cs
       else csvSplitAux d .unquoted (c :: cur) cs)
    else csvSplitAux d .unquoted (c :: cur) cs

/-- One line of the file parsed into fields under a delimiter, with the
default quote handling. -/
def splitCsvLine (d : Char) (l : List Char) : List (List Char) :=
  csvSplitAux d .unquoted [] l

/-- `smart_read_csv`: sniff the delimiter from the first line, then parse
the whole file under it into a table of cells (quote-aware field
splitting, as `pd.read_csv` does by default). -/
def smart_read_csv (lines : List (List Char)) : Except String (List (List (List Char))) :=
  match lines with
  | [] => .error "FormatError: could not determine delimiter"
  | l :: _ =>
    match sniffDelim l with
    | none => .error "FormatError: could not determine delimiter"
    | some d => .ok (lines.map (splitCsvLine d))

/-- The position of a named column in the header row (pandas column
access by name). -/
def colIdx (header : List (List Char)) (name : String) : Option Nat :=
  header.findIdx? (fun c => String.mk c = name)

/-- One parsed data row, reading the four columns the converter uses by
their header names. -/
def rowToMeta (header row : List (List Char)) : Option MetaRow := do
  let fi ← colIdx header "filename"
  let si ← colIdx header "scene_label"
  let ii ← colIdx header "identifier"
  let li ← colIdx header "source_label"
  let f ← (row.get? fi).map String.mk
  let s ← (row.get? si).map String.mk
  let i ← (row.get? ii).map String.mk
  let l ← (row.get? li).map String.mk
  some { filename := f, scene_label := s, identifier := i, source_label := l }

/-- `smart_read_csv` followed by record extraction: the parsed metadata
rows of the file, header interpreted by name. -/
def readMeta (lines : List (List Char)) : Except String (List MetaRow) :=
  match smart_read_csv lines with
  | .error e => .error e
  | .ok [] => .error "EmptyDataError"
  | .ok (header :: dataRows) =>
    match dataRows.mapM (rowToMeta header) with
    | some ms => .ok ms
    | none => .error "KeyError: missing column"

/-- The parsed metadata mapping: each parsed row keyed by its normalized
basename (the `basename` column the converter adds before `set_index`). -/
def metaMapping (lines : List (List Char)) : Except String (List (String × MetaRow)) :=
  (readMeta lines).map (fun ms => ms.map (fun r => (metaBasename r, r)))

/-- A rendering of one logical row under a delimiter: cells joined by the
delimiter character. -/
def renderRow (d : Char) : List (List Char) → List Char
  | [] => []
  | [c] => c
  | c :: rest => c ++ d :: renderRow d rest

/-- A rendering of a logical table under a delimiter: one rendered line
per row. -/
def renderTable (d : Char) (tbl : List (List (List Char))) : List (List Char) :=
  tbl.map (renderRow d)

/-- A row whose cells contain neither a candidate delimiter character nor
the quote character (so it has a plain delimited rendering, needing no
quoting, under every candidate). -/
def cleanRow (row : List (List Char)) : Prop :=
  row ≠ [] ∧ ∀ cell ∈ row,
    (∀ d ∈ candidateDelims, hasChar d cell = false) ∧ hasChar '"' cell = false

instance (row : List (List Char)) : Decidable (cleanRow row) := by
  unfold cleanRow; infer_instance

/-- The annotation document is a mapping whose top-level `files` key holds
a list (the shape `yaml.safe_load(f)["files"]` requires). -/
def FilesWellFormed (doc : Yaml) : Prop :=
  ∃ kvs xs, doc = .map kvs ∧ kvs.lookup "files" = some (.list xs)

/-- `loadYamlItems` composed with per-entry parsing: the annotation groups
of a document. -/
def groupsOf (doc : Yaml) : Except String (List AnnotationGroup) := do
  let items ← loadYamlItems doc
  items.mapM parseGroup

/-! ### Theorems -/

/-- Binding a failed `Except` computation propagates the error. -/
theorem bind_error_left {ε : Type u} {α β : Type u} (e : ε) (f : α → Except ε β) :
    (do let x ← (Except.error e : Except ε α); f x) = .error e := rfl

/-- Binding a successful `Except` computation applies the continuation. -/
theorem bind_ok_left {ε : Type u} {α β : Type u} (a : α) (f : α → Except ε β) :
    (do let x ← (Except.ok a : Except ε α); f x) = f a := rfl

/-- C1: every record produced by the join has its `captions`, `tags` and
`annotators` drawn positionally from the annotation list of one of the
input groups, in original order, so the three sequences have equal length. -/
theorem c1_captions_tags_annotators_aligned (root : String)
    (lookup : String → Option MetaRow) (items : List AnnotationGroup) (r : Row)
    (hr : r ∈ joinGroups root lookup items) :
    ∃ g ∈ items,
      r.captions = g.annotations.map (fun a => a.sentence) ∧
      r.tags = g.annotations.map (fun a => a.tags) ∧
      r.annotators = g.annotations.map (fun a => a.annotator_id) ∧
      r.captions.length = r.tags.length ∧
      r.tags.length = r.annotators.length := by
  simp only [joinGroups, List.mem_map] at hr
  obtain ⟨g, hg, rfl⟩ := hr
  exact ⟨g, hg, rfl, rfl, rfl, by simp [buildRow], by simp [buildRow]⟩

/-- Witness for C1 at a concrete one-group input. -/
theorem c1_captions_tags_annotators_aligned_witness :
    ∃ g ∈ ([⟨"x/a.wav", [⟨"s", ["t"], 1⟩]⟩] : List AnnotationGroup),
      (buildRow "r" (fun _ => none) ⟨"x/a.wav", [⟨"s", ["t"], 1⟩]⟩).captions
        = g.annotations.map (fun a => a.sentence) ∧
      (buildRow "r" (fun _ => none) ⟨"x/a.wav", [⟨"s", ["t"], 1⟩]⟩).tags
        = g.annotations.map (fun a => a.tags) ∧
      (buildRow "r" (fun _ => none) ⟨"x/a.wav", [⟨"s", ["t"], 1⟩]⟩).annotators
        = g.annotations.map (fun a => a.annotator_id) ∧
      (buildRow "r" (fun _ => none) ⟨"x/a.wav", [⟨"s", ["t"], 1⟩]⟩).captions.length
        = (buildRow "r" (fun _ => none) ⟨"x/a.wav", [⟨"s", ["t"], 1⟩]⟩).tags.length ∧
      (buildRow "r" (fun _ => none) ⟨"x/a.wav", [⟨"s", ["t"], 1⟩]⟩).tags.length
        = (buildRow "r" (fun _ => none) ⟨"x/a.wav", [⟨"s", ["t"], 1⟩]⟩).annotators.length :=
  c1_captions_tags_annotators_aligned "r" (fun _ => none) _ _
    (by simp [joinGroups])

/-- C2: the join emits exactly one record per annotation group — the output
length equals the number of groups, and the record at every position is the
one built from the group at the same position (order preserved). -/
theorem c2_one_record_per_group_in_order (root : String)
    (lookup : String → Option MetaRow) (items : List AnnotationGroup) :
    (joinGroups root lookup items).length = items.length ∧
    ∀ i : Nat, (joinGroups root lookup items)[i]?
      = (items[i]?).map (buildRow root lookup) := by
  refine ⟨List.length_map _ _, fun i => ?_⟩
  simp [joinGroups]

/-- C3: a group whose basename is absent from the metadata mapping still
yields a record (the join is total), with `scene`, `audio_identifier` and
`audio_source_label` all null and every other field populated normally. -/
theorem c3_missing_metadata_degrades_to_null (root : String)
    (lookup : String → Option MetaRow) (g : AnnotationGroup)
    (h : lookup (pathName g.filename) = none) :
    (buildRow root lookup g).scene = none ∧
    (buildRow root lookup g).audio_identifier = none ∧
    (buildRow root lookup g).audio_source_label = none ∧
    (buildRow root lookup g).filename = pathName g.filename ∧
    (buildRow root lookup g).audio = joinPath root (pathName g.filename) ∧
    (buildRow root lookup g).captions = g.annotations.map (fun a => a.sentence) ∧
    (buildRow root lookup g).tags = g.annotations.map (fun a => a.tags) ∧
    (buildRow root lookup g).annotators = g.annotations.map (fun a => a.annotator_id) ∧
    ∀ items, g ∈ items → buildRow root lookup g ∈ joinGroups root lookup items := by
  refine ⟨?_, ?_, ?_, rfl, rfl, rfl, rfl, rfl, fun items hg => List.mem_map_of_mem _ hg⟩
  all_goals simp [buildRow, h]

/-- Witness for C3 at a concrete orphan group. -/
theorem c3_missing_metadata_degrades_to_null_witness :
    (buildRow "r" (fun _ => none) ⟨"x/b2.wav", []⟩).scene = none ∧
    (buildRow "r" (fun _ => none) ⟨"x/b2.wav", []⟩).audio_identifier = none ∧
    (buildRow "r" (fun _ => none) ⟨"x/b2.wav", []⟩).audio_source_label = none ∧
    (buildRow "r" (fun _ => none) ⟨"x/b2.wav", []⟩).filename
      = pathName (AnnotationGroup.mk "x/b2.wav" []).filename ∧
    (buildRow "r" (fun _ => none) ⟨"x/b2.wav", []⟩).audio
      = joinPath "r" (pathName (AnnotationGroup.mk "x/b2.wav" []).filename) ∧
    (buildRow "r" (fun _ => none) ⟨"x/b2.wav", []⟩).captions
      = (AnnotationGroup.mk "x/b2.wav" []).annotations.map (fun a => a.sentence) ∧
    (buildRow "r" (fun _ => none) ⟨"x/b2.wav", []⟩).tags
      = (AnnotationGroup.mk "x/b2.wav" []).annotations.map (fun a => a.tags) ∧
    (buildRow "r" (fun _ => none) ⟨"x/b2.wav", []⟩).annotators
      = (AnnotationGroup.mk "x/b2.wav" []).annotations.map (fun a => a.annotator_id) ∧
    ∀ items, (AnnotationGroup.mk "x/b2.wav" []) ∈ items →
      buildRow "r" (fun _ => none) ⟨"x/b2.wav", []⟩ ∈ joinGroups "r" (fun _ => none) items :=
  c3_missing_metadata_degrades_to_null "r" (fun _ => none) ⟨"x/b2.wav", []⟩ rfl

/-- C4: the concrete scenario — metadata row `audio/a1.wav`/`park`/`id1`/`src1`
joined with the annotation group for `somepath/a1.wav` yields exactly the
expected record, basenames derived on each side as specified. -/
theorem c4_concrete_scenario :
    convert_macs_to_hf "root" [⟨"audio/a1.wav", "park", "id1", "src1"⟩]
      (.map [("files", .list [.map [("filename", .str "somepath/a1.wav"),
        ("annotations", .list [.map [("sentence", .str "birds chirping"),
          ("tags", .list [.str "nature"]), ("annotator_id", .int 3)]])]])])
    = .ok [{ filename := "a1.wav", scene := some "park", audio := "root/a1.wav",
             captions := ["birds chirping"], tags := [["nature"]], annotators := [3],
             audio_identifier := some "id1", audio_source_label := some "src1" }] := by
  rfl

/-- C9: a group with an empty annotation list still yields a record, with
`captions`, `tags` and `annotators` all empty and the remaining fields
populated as usual. -/
theorem c9_empty_annotations_ok (root : String)
    (lookup : String → Option MetaRow) (g : AnnotationGroup)
    (h : g.annotations = []) :
    (buildRow root lookup g).captions = [] ∧
    (buildRow root lookup g).tags = [] ∧
    (buildRow root lookup g).annotators = [] ∧
    (buildRow root lookup g).filename = pathName g.filename ∧
    (buildRow root lookup g).audio = joinPath root (pathName g.filename) ∧
    (buildRow root lookup g).scene
      = (lookup (pathName g.filename)).map (fun r => r.scene_label) ∧
    (buildRow root lookup g).audio_identifier
      = (lookup (pathName g.filename)).map (fun r => r.identifier) ∧
    (buildRow root lookup g).audio_source_label
      = (lookup (pathName g.filename)).map (fun r => r.source_label) ∧
    ∀ items, g ∈ items → buildRow root lookup g ∈ joinGroups root lookup items := by
  refine ⟨?_, ?_, ?_, rfl, rfl, rfl, rfl, rfl, fun items hg => List.mem_map_of_mem _ hg⟩
  all_goals simp [buildRow, h]

/-- Witness for C9 at a concrete empty-annotation group. -/
theorem c9_empty_annotations_ok_witness :
    (buildRow "r" (fun _ => none) ⟨"c.wav", []⟩).captions = [] ∧
    (buildRow "r" (fun _ => none) ⟨"c.wav", []⟩).tags = [] ∧
    (buildRow "r" (fun _ => none) ⟨"c.wav", []⟩).annotators = [] ∧
    (buildRow "r" (fun _ => none) ⟨"c.wav", []⟩).filename
      = pathName (AnnotationGroup.mk "c.wav" []).filename ∧
    (buildRow "r" (fun _ => none) ⟨"c.wav", []⟩).audio
      = joinPath "r" (pathName (AnnotationGroup.mk "c.wav" []).filename) ∧
    (buildRow "r" (fun _ => none) ⟨"c.wav", []⟩).scene
      = ((fun _ => none : String → Option MetaRow)
          (pathName (AnnotationGroup.mk "c.wav" []).filename)).map (fun r => r.scene_label) ∧
    (buildRow "r" (fun _ => none) ⟨"c.wav", []⟩).audio_identifier
      = ((fun _ => none : String → Option MetaRow)
          (pathName (AnnotationGroup.mk "c.wav" []).filename)).map (fun r => r.identifier) ∧
    (buildRow "r" (fun _ => none) ⟨"c.wav", []⟩).audio_source_label
      = ((fun _ => none : String → Option MetaRow)
          (pathName (AnnotationGroup.mk "c.wav" []).filename)).map (fun r => r.source_label) ∧
    ∀ items, (AnnotationGroup.mk "c.wav" []) ∈ items →
      buildRow "r" (fun _ => none) ⟨"c.wav", []⟩ ∈ joinGroups "r" (fun _ => none) items :=
  c9_empty_annotations_ok "r" (fun _ => none) ⟨"c.wav", []⟩ rfl

/-- C5 counterexample: two annotation groups with the same basename yield
two records with the same filename — output filenames need not be unique. -/
theorem c5_counterexample :
    ¬ (((joinGroups "root" (fun _ => none)
        ([⟨"a.wav", []⟩, ⟨"a.wav", []⟩] : List AnnotationGroup)).map
          (fun r => r.filename)).Nodup) := by
  decide

/-- C5 amended: the output filenames are exactly the groups' derived
basenames in order (the join deduplicates nothing), so they are unique
exactly when the input groups' basenames are pairwise distinct. -/
theorem c5_filename_unique_iff_group_basenames_distinct (root : String)
    (lookup : String → Option MetaRow) (items : List AnnotationGroup) :
    (joinGroups root lookup items).map (fun r => r.filename)
      = items.map (fun g => pathName g.filename) ∧
    ((items.map (fun g => pathName g.filename)).Nodup →
      ((joinGroups root lookup items).map (fun r => r.filename)).Nodup) := by
  have h1 : (joinGroups root lookup items).map (fun r => r.filename)
      = items.map (fun g => pathName g.filename) := by
    simp only [joinGroups, List.map_map]; rfl
  exact ⟨h1, fun h => h1 ▸ h⟩

/-- Witness for C5 amended at a concrete two-group input with distinct
basenames. -/
theorem c5_filename_unique_witness :
    ((joinGroups "root" (fun _ => none)
      ([⟨"a.wav", []⟩, ⟨"b.wav", []⟩] : List AnnotationGroup)).map
        (fun r => r.filename)).Nodup :=
  (c5_filename_unique_iff_group_basenames_distinct "root" (fun _ => none)
    [⟨"a.wav", []⟩, ⟨"b.wav", []⟩]).2 (by decide)

/-- C6: a document that is not a mapping with a `files` list fails in the
annotation loader, and the whole conversion then yields no record sequence. -/
theorem c6_malformed_doc_fails (doc : Yaml) (h : ¬ FilesWellFormed doc) :
    (∃ e, loadYamlItems doc = .error e) ∧
    ∀ root rows rs, convert_macs_to_hf root rows doc ≠ .ok rs := by
  have hload : ∃ e, loadYamlItems doc = .error e := by
    match doc with
    | .str s => exact ⟨_, rfl⟩
    | .int n => exact ⟨_, rfl⟩
    | .list xs => exact ⟨_, rfl⟩
    | .null => exact ⟨_, rfl⟩
    | .map kvs =>
      match hlk : kvs.lookup "files" with
      | none =>
        exact ⟨"KeyError: 'files'", by simp [loadYamlItems, hlk]⟩
      | some (.list xs) => exact absurd ⟨kvs, xs, rfl, hlk⟩ h
      | some (.str s) =>
        exact ⟨"TypeError: 'files' is not a list", by simp [loadYamlItems, hlk]⟩
      | some (.int n) =>
        exact ⟨"TypeError: 'files' is not a list", by simp [loadYamlItems, hlk]⟩
      | some (.map m) =>
        exact ⟨"TypeError: 'files' is not a list", by simp [loadYamlItems, hlk]⟩
      | some .null =>
        exact ⟨"TypeError: 'files' is not a list", by simp [loadYamlItems, hlk]⟩
  obtain ⟨e, he⟩ := hload
  refine ⟨⟨e, he⟩, fun root rows rs hok => ?_⟩
  cases hbl : buildLookup rows with
  | error e2 =>
    simp only [convert_macs_to_hf, hbl, bind_error_left] at hok
    exact Except.noConfusion hok
  | ok l =>
    simp only [convert_macs_to_hf, hbl, bind_ok_left, he, bind_error_left] at hok
    exact Except.noConfusion hok

/-- Witness for C6 at a concrete document lacking the `files` key. -/
theorem c6_malformed_doc_fails_witness :
    (∃ e, loadYamlItems (Yaml.map []) = .error e) ∧
    ∀ root rows rs, convert_macs_to_hf root rows (Yaml.map []) ≠ .ok rs :=
  c6_malformed_doc_fails (Yaml.map [])
    (by rintro ⟨kvs, xs, hkv, hlk⟩; cases hkv; simp at hlk)

/-- C8: a metadata table with duplicate normalized basenames makes the
lookup construction fail, and the conversion aborts (yields no record
sequence) whatever the annotation document. -/
theorem c8_duplicate_metadata_basenames_rejected (rows : List MetaRow)
    (h : allDistinct (rows.map metaBasename) = false) :
    (∃ e, buildLookup rows = .error e) ∧
    ∀ root doc rs, convert_macs_to_hf root rows doc ≠ .ok rs := by
  have hb : buildLookup rows = .error "ValueError: DataFrame index must be unique" := by
    simp [buildLookup, h]
  refine ⟨⟨_, hb⟩, fun root doc rs hok => ?_⟩
  simp only [convert_macs_to_hf, hb, bind_error_left] at hok
  exact Except.noConfusion hok

/-- Witness for C8 at a concrete table where `audio/a.wav` and `a.wav`
normalize to the same basename. -/
theorem c8_duplicate_metadata_basenames_rejected_witness :
    (∃ e, buildLookup ([⟨"audio/a.wav", "p", "i", "s"⟩, ⟨"a.wav", "q", "j", "t"⟩]
      : List MetaRow) = .error e) ∧
    ∀ root doc rs, convert_macs_to_hf root
      ([⟨"audio/a.wav", "p", "i", "s"⟩, ⟨"a.wav", "q", "j", "t"⟩] : List MetaRow)
      doc ≠ .ok rs :=
  c8_duplicate_metadata_basenames_rejected
    [⟨"audio/a.wav", "p", "i", "s"⟩, ⟨"a.wav", "q", "j", "t"⟩] (by decide)

/-- The first match of `p` is unchanged by discarding elements that cannot
match (`q` holds wherever `p` does). -/
theorem find_first_in_filter {α : Type} (p q : α → Bool)
    (h : ∀ x, p x = true → q x = true) :
    ∀ l : List α, (l.filter q).find? p = l.find? p := by
  intro l
  induction l with
  | nil => rfl
  | cons a l ih =>
    cases hq : q a with
    | false =>
      have hp : p a = false := by
        cases hpa : p a with
        | false => rfl
        | true => rw [h a hpa] at hq; exact Bool.noConfusion hq
      rw [List.filter_cons_of_neg (by simp [hq]), ih,
        List.find?_cons_of_neg _ (by simp [hp])]
    | true =>
      rw [List.filter_cons_of_pos (by simp [hq])]
      cases hp : p a with
      | true =>
        rw [List.find?_cons_of_pos _ (by simp [hp]),
          List.find?_cons_of_pos _ (by simp [hp])]
      | false =>
        rw [List.find?_cons_of_neg _ (by simp [hp]),
          List.find?_cons_of_neg _ (by simp [hp]), ih]

/-- C10: metadata rows whose basename matches no annotation group do not
affect the output — two duplicate-free tables agreeing on the rows whose
basenames occur among the groups convert identically. -/
theorem c10_unmatched_metadata_no_effect (root : String) (doc : Yaml)
    (items : List AnnotationGroup) (m1 m2 : List MetaRow)
    (hg : groupsOf doc = .ok items)
    (h1 : allDistinct (m1.map metaBasename) = true)
    (h2 : allDistinct (m2.map metaBasename) = true)
    (hfilt : m1.filter (fun r => items.any (fun g => pathName g.filename == metaBasename r))
           = m2.filter (fun r => items.any (fun g => pathName g.filename == metaBasename r))) :
    convert_macs_to_hf root m1 doc = convert_macs_to_hf root m2 doc := by
  have hb1 : buildLookup m1 = .ok (fun b => m1.find? (fun r => metaBasename r == b)) := by
    simp [buildLookup, h1]
  have hb2 : buildLookup m2 = .ok (fun b => m2.find? (fun r => metaBasename r == b)) := by
    simp [buildLookup, h2]
  cases hli : loadYamlItems doc with
  | error e =>
    simp only [groupsOf, hli, bind_error_left] at hg
    exact Except.noConfusion hg
  | ok ys =>
    have hmap : ys.mapM parseGroup = .ok items := by
      simpa only [groupsOf, hli, bind_ok_left] using hg
    simp only [convert_macs_to_hf, hb1, hb2, bind_ok_left, hli, hmap]
    congr 1
    apply List.map_congr_left
    intro g hgmem
    have himp : ∀ r, (metaBasename r == pathName g.filename) = true →
        (items.any (fun g' => pathName g'.filename == metaBasename r)) = true := by
      intro r hr
      have hrb : metaBasename r = pathName g.filename := by simpa using hr
      refine List.any_eq_true.mpr ⟨g, hgmem, ?_⟩
      simp [hrb]
    have hl : m1.find? (fun r => metaBasename r == pathName g.filename)
            = m2.find? (fun r => metaBasename r == pathName g.filename) := by
      calc m1.find? (fun r => metaBasename r == pathName g.filename)
          = (m1.filter (fun r => items.any
              (fun g' => pathName g'.filename == metaBasename r))).find?
              (fun r => metaBasename r == pathName g.filename) :=
            (find_first_in_filter _ _ himp m1).symm
        _ = (m2.filter (fun r => items.any
              (fun g' => pathName g'.filename == metaBasename r))).find?
              (fun r => metaBasename r == pathName g.filename) := by rw [hfilt]
        _ = m2.find? (fun r => metaBasename r == pathName g.filename) :=
            find_first_in_filter _ _ himp m2
    simp [buildRow, hl]

/-- Witness for C10: dropping a metadata row matched by no group leaves the
conversion output unchanged. -/
theorem c10_unmatched_metadata_no_effect_witness :
    convert_macs_to_hf "root"
      ([⟨"a.wav", "p", "i", "s"⟩, ⟨"zz.wav", "q", "j", "t"⟩] : List MetaRow)
      (.map [("files", .list [.map [("filename", .str "a.wav"),
        ("annotations", .list [])]])])
    = convert_macs_to_hf "root" ([⟨"a.wav", "p", "i", "s"⟩] : List MetaRow)
      (.map [("files", .list [.map [("filename", .str "a.wav"),
        ("annotations", .list [])]])]) :=
  c10_unmatched_metadata_no_effect "root"
    (.map [("files", .list [.map [("filename", .str "a.wav"),
      ("annotations", .list [])]])])
    [⟨"a.wav", []⟩]
    [⟨"a.wav", "p", "i", "s"⟩, ⟨"zz.wav", "q", "j", "t"⟩]
    [⟨"a.wav", "p", "i", "s"⟩]
    rfl (by decide) (by decide) (by decide)

/-- Splitting never yields an empty list of fields. -/
theorem splitOnChar_ne_nil (d : Char) (l : List Char) : splitOnChar d l ≠ [] := by
  cases l with
  | nil => simp [splitOnChar]
  | cons c cs =>
    simp only [splitOnChar]
    cases splitOnChar d cs with
    | nil => by_cases hc : c = d <;> simp [hc]
    | cons x xs => by_cases hc : c = d <;> simp [hc]

/-- A line without the delimiter is one single field. -/
theorem splitOnChar_eq_self (d : Char) (c : List Char) (h : hasChar d c = false) :
    splitOnChar d c = [c] := by
  induction c with
  | nil => rfl
  | cons a as ih =>
    simp only [hasChar, List.any_cons, Bool.or_eq_false_iff] at h
    have had : ¬ a = d := by simpa using h.1
    have ih' := ih (by simpa [hasChar] using h.2)
    simp [splitOnChar, ih', had]

/-- Splitting a line that starts with a delimiter-free field followed by the
delimiter peels off that field. -/
theorem splitOnChar_append (d : Char) (rest : List Char) :
    ∀ c : List Char, hasChar d c = false →
    splitOnChar d (c ++ d :: rest) = c :: splitOnChar d rest := by
  intro c h
  induction c with
  | nil =>
    simp only [List.nil_append]
    cases hsp : splitOnChar d rest with
    | nil => exact absurd hsp (splitOnChar_ne_nil d rest)
    | cons x xs => simp [splitOnChar, hsp]
  | cons a as ih =>
    simp only [hasChar, List.any_cons, Bool.or_eq_false_iff] at h
    have had : ¬ a = d := by simpa using h.1
    have ih' := ih (by simpa [hasChar] using h.2)
    simp [splitOnChar, ih', had]

/-- Splitting a rendered row on the rendering delimiter recovers the row,
provided no cell contains the delimiter. -/
theorem splitOnChar_renderRow (d : Char) :
    ∀ row : List (List Char), row ≠ [] →
    (∀ cell ∈ row, hasChar d cell = false) →
    splitOnChar d (renderRow d row) = row := by
  intro row
  induction row with
  | nil => intro h; exact absurd rfl h
  | cons c rest ih =>
    intro _ hcells
    cases rest with
    | nil =>
      show splitOnChar d (renderRow d [c]) = [c]
      have hr : renderRow d [c] = c := rfl
      rw [hr, splitOnChar_eq_self d c (hcells c (by simp))]
    | cons c' rest' =>
      have hr : renderRow d (c :: c' :: rest') = c ++ d :: renderRow d (c' :: rest') := rfl
      rw [hr, splitOnChar_append d _ c (hcells c (by simp)),
        ih (by simp) (fun cell hc => hcells cell (List.mem_cons_of_mem _ hc))]

/-- A rendering of a row with at least two cells contains its delimiter. -/
theorem hasChar_renderRow_self (d : Char) (c c' : List Char)
    (rest : List (List Char)) :
    hasChar d (renderRow d (c :: c' :: rest)) = true := by
  have hr : renderRow d (c :: c' :: rest) = c ++ d :: renderRow d (c' :: rest) := rfl
  rw [hr]
  simp [hasChar, List.any_append, List.any_cons]

/-- A rendering under one delimiter contains no other candidate character,
provided no cell does. -/
theorem hasChar_renderRow_other (d e : Char) (hne : d ≠ e) :
    ∀ row : List (List Char), (∀ cell ∈ row, hasChar e cell = false) →
    hasChar e (renderRow d row) = false := by
  intro row
  induction row with
  | nil => intro _; rfl
  | cons c rest ih =>
    intro hcells
    cases rest with
    | nil => exact hcells c (by simp)
    | cons c' rest' =>
      have hr : renderRow d (c :: c' :: rest') = c ++ d :: renderRow d (c' :: rest') := rfl
      rw [hr]
      have h1 : hasChar e c = false := hcells c (by simp)
      have h2 : hasChar e (renderRow d (c' :: rest')) = false :=
        ih (fun cell hc => hcells cell (List.mem_cons_of_mem _ hc))
      simp only [hasChar] at h1 h2 ⊢
      simp [List.any_append, List.any_cons, h1, h2, hne]

/-- On a line without the quote character, the quote-aware splitter in
unquoted mode appends the accumulated field onto the first plain-split
field. -/
theorem csvSplitAux_no_quote (d : Char) :
    ∀ (l cur : List Char), hasChar '"' l = false →
    csvSplitAux d .unquoted cur l =
      (cur.reverse ++ (splitOnChar d l).headI) :: (splitOnChar d l).tail := by
  intro l
  induction l with
  | nil =>
    intro cur _
    simp [csvSplitAux, splitOnChar]
  | cons c cs ih =>
    intro cur h
    simp only [hasChar, List.any_cons, Bool.or_eq_false_iff] at h
    have hcq : ¬ c = '"' := by simpa using h.1
    have hcs : hasChar '"' cs = false := by simpa [hasChar] using h.2
    cases hsp0 : splitOnChar d cs with
    | nil => exact absurd hsp0 (splitOnChar_ne_nil d cs)
    | cons y ys =>
      have ihy := ih cur hcs
      by_cases hcd : c = d
      · subst hcd
        have ih0 := ih [] hcs
        rw [hsp0] at ih0
        simp only [csvSplitAux, if_pos rfl, ih0]
        simp [splitOnChar, hsp0]
      · have ihc := ih (c :: cur) hcs
        rw [hsp0] at ihc
        simp only [csvSplitAux, if_neg hcd, if_neg hcq, ihc]
        simp [splitOnChar, hsp0, hcd]

/-- On a line without the quote character, quote-aware parsing coincides
with plain splitting on the delimiter. -/
theorem splitCsvLine_no_quote (d : Char) (l : List Char)
    (h : hasChar '"' l = false) : splitCsvLine d l = splitOnChar d l := by
  cases hsp : splitOnChar d l with
  | nil => exact absurd hsp (splitOnChar_ne_nil d l)
  | cons x xs =>
    have hx := csvSplitAux_no_quote d l [] h
    rw [hsp] at hx
    simpa [splitCsvLine, hsp] using hx

/-- Parsing a rendered table under its own delimiter recovers the table,
once the sniffer has returned that delimiter, provided no cell contains
the delimiter or the quote character. -/
theorem smart_read_renderTable (d : Char) (r0 : List (List Char))
    (rest : List (List (List Char)))
    (hdq : d ≠ '"')
    (hsniff : sniffDelim (renderRow d r0) = some d)
    (hclean : ∀ row ∈ r0 :: rest, row ≠ [] ∧
      (∀ cell ∈ row, hasChar d cell = false) ∧
      (∀ cell ∈ row, hasChar '"' cell = false)) :
    smart_read_csv (renderTable d (r0 :: rest)) = .ok (r0 :: rest) := by
  have hmap : ∀ row ∈ r0 :: rest, splitCsvLine d (renderRow d row) = row := by
    intro row hr
    have hq : hasChar '"' (renderRow d row) = false :=
      hasChar_renderRow_other d '"' hdq row (hclean row hr).2.2
    rw [splitCsvLine_no_quote d _ hq]
    exact splitOnChar_renderRow d row (hclean row hr).1 (hclean row hr).2.1
  unfold renderTable smart_read_csv
  simp only [List.map_cons]
  rw [hsniff]
  simp only [List.map_map]
  congr 1
  rw [hmap r0 (by simp)]
  congr 1
  conv_rhs => rw [← List.map_id rest]
  apply List.map_congr_left
  intro row hr
  exact hmap row (by simp [hr])

/-- C7: a comma-separated and a tab-separated rendering of the same logical
table parse to identical metadata mappings through the delimiter-sniffing
reader, provided the table's cells are delimiter-free and the header row
has at least two columns. -/
theorem c7_delimiter_equivalence (r0 : List (List Char))
    (rest : List (List (List Char)))
    (h2 : 2 ≤ r0.length)
    (hclean : ∀ row ∈ r0 :: rest, cleanRow row) :
    metaMapping (renderTable ',' (r0 :: rest))
      = metaMapping (renderTable '\t' (r0 :: rest)) := by
  have hcl : ∀ d ∈ candidateDelims, ∀ row ∈ r0 :: rest,
      row ≠ [] ∧ (∀ cell ∈ row, hasChar d cell = false) ∧
      (∀ cell ∈ row, hasChar '"' cell = false) := by
    intro d hd row hr
    exact ⟨(hclean row hr).1,
      fun cell hc => ((hclean row hr).2 cell hc).1 d hd,
      fun cell hc => ((hclean row hr).2 cell hc).2⟩
  cases r0 with
  | nil => simp at h2
  | cons c r1 =>
    cases r1 with
    | nil => simp at h2
    | cons c' rest0 =>
      have hs1 : smart_read_csv (renderTable ',' ((c :: c' :: rest0) :: rest))
          = .ok ((c :: c' :: rest0) :: rest) := by
        apply smart_read_renderTable
        · decide
        · have hself := hasChar_renderRow_self ',' c c' rest0
          unfold sniffDelim candidateDelims
          simp [List.find?, hself]
        · exact hcl ',' (by simp [candidateDelims])
      have hs2 : smart_read_csv (renderTable '\t' ((c :: c' :: rest0) :: rest))
          = .ok ((c :: c' :: rest0) :: rest) := by
        apply smart_read_renderTable
        · decide
        · have hnc : hasChar ',' (renderRow '\t' (c :: c' :: rest0)) = false := by
            apply hasChar_renderRow_other '\t' ',' (by decide)
            intro cell hcell
            exact (hcl ',' (by simp [candidateDelims]) (c :: c' :: rest0)
              (by simp)).2.1 cell hcell
          have hself := hasChar_renderRow_self '\t' c c' rest0
          unfold sniffDelim candidateDelims
          simp [List.find?, hnc, hself]
        · exact hcl '\t' (by simp [candidateDelims])
      unfold metaMapping readMeta
      rw [hs1, hs2]

/-- Witness for C7 at a concrete four-column table rendered both ways. -/
theorem c7_delimiter_equivalence_witness :
    metaMapping (renderTable ','
      ([["filename".toList, "scene_label".toList, "identifier".toList,
         "source_label".toList],
        ["audio/a1.wav".toList, "park".toList, "id1".toList, "src1".toList]]))
    = metaMapping (renderTable '\t'
      ([["filename".toList, "scene_label".toList, "identifier".toList,
         "source_label".toList],
        ["audio/a1.wav".toList, "park".toList, "id1".toList, "src1".toList]])) :=
  c7_delimiter_equivalence
    ["filename".toList, "scene_label".toList, "identifier".toList,
     "source_label".toList]
    [["audio/a1.wav".toList, "park".toList, "id1".toList, "src1".toList]]
    (by decide) (by decide)

end MacsToHf
